import Mathlib

/-!
Shallow embedding of the view layer of the `blogicum` blog application
(`src/blogicum/blog/views.py`).

The persistence layer is modelled as an explicit `DB` value holding the
stored `User`, `Category`, `Post` and `Comment` rows.  Django model
instances compare by primary key, so the embedding compares entities by
their `id` field wherever the source compares model instances.  The
request user is an `Actor`: either the anonymous user or an authenticated
`User`; an anonymous actor is never equal to any stored user.

`timezone.now()` is passed in explicitly as an integer timestamp `now`.

Each Django class-based view is embedded as a function named after the
class and the method that holds the relevant logic.  Views that mutate
the store return the possibly-updated `DB` next to the HTTP-level
outcome.  `Outcome` collects the observable results: a successful value,
a 404 (`get_object_or_404` / `Http404`), a 403 (`PermissionDenied`), a
redirect to the login entry point (`LoginRequiredMixin`), and the
redirect to a post's detail page issued by `PostUpdateView.dispatch`.
-/

structure User where
  id : Nat
  username : String
deriving DecidableEq

structure Category where
  id : Nat
  slug : String
  is_published : Bool
deriving DecidableEq

/-- The post row, carrying its joined author and category rows
(`select_related` / foreign-key access in the source). -/
structure Post where
  id : Nat
  title : String
  author : User
  category : Category
  pub_date : Int
  is_published : Bool
deriving DecidableEq

structure Comment where
  id : Nat
  post : Nat
  author : User
  text : String
  created_at : Int
deriving DecidableEq

structure DB where
  users : List User
  categories : List Category
  posts : List Post
  comments : List Comment
deriving DecidableEq

/-- `request.user`: either Django's `AnonymousUser` or a signed-in user. -/
inductive Actor where
  | anonymous
  | authenticated (user : User)
deriving DecidableEq

def Actor.is_authenticated : Actor → Bool
  | .anonymous => false
  | .authenticated _ => true

/-- Django equality between `request.user` and a stored model user:
`AnonymousUser` equals no stored user; model instances compare by pk. -/
def Actor.eqUser : Actor → User → Bool
  | .anonymous, _ => false
  | .authenticated u, v => u.id == v.id

/-- Observable outcome of a request handler. -/
inductive Outcome (α : Type) where
  | ok (value : α)
  | notFound
  | forbidden
  | redirectLogin
  | redirectPostDetail (post_id : Nat)
deriving DecidableEq

/-- `annotate(comment_count=Count('comments'))` for one post: the number
of stored comments whose `post` foreign key is this post. -/
def comment_count (db : DB) (p : Post) : Nat :=
  (db.comments.filter (fun c => c.post == p.id)).length

/-- `order_by('-pub_date')` on posts: descending publication date. -/
def postDesc (a b : Post) : Prop := b.pub_date ≤ a.pub_date

/-- Descending publication date on annotated `(post, comment_count)` rows. -/
def pairDesc (a b : Post × Nat) : Prop := b.1.pub_date ≤ a.1.pub_date

instance : DecidableRel postDesc := fun a b => Int.decLe _ _

instance : DecidableRel pairDesc := fun a b => Int.decLe _ _

instance : IsTotal Post postDesc :=
  ⟨fun a b => le_total b.pub_date a.pub_date⟩

instance : IsTrans Post postDesc :=
  ⟨fun _ _ _ hab hbc => le_trans hbc hab⟩

instance : IsTotal (Post × Nat) pairDesc :=
  ⟨fun a b => le_total b.1.pub_date a.1.pub_date⟩

instance : IsTrans (Post × Nat) pairDesc :=
  ⟨fun _ _ _ hab hbc => le_trans hbc hab⟩

def order_by_pub_date_desc (posts : List Post) : List Post :=
  posts.insertionSort postDesc

/-- `PostListView.get_queryset`: the global feed.  Filter on
`is_published=True, pub_date__lte=now, category__is_published=True`,
order by `-pub_date`, annotate the comment count. -/
def PostListView.get_queryset (db : DB) (now : Int) : List (Post × Nat) :=
  let queryset := db.posts.filter (fun p =>
    p.is_published && decide (p.pub_date ≤ now) && p.category.is_published)
  (order_by_pub_date_desc queryset).map (fun p => (p, comment_count db p))

/-- `PostCreateView`: `LoginRequiredMixin` redirects unauthenticated
callers to `/login/`; otherwise `form_valid` stores the post with
`author = request.user` and the view redirects to that profile. -/
def PostCreateView.handle (db : DB) (request_user : Actor) (form : Post) :
    Outcome Post × DB :=
  match request_user with
  | .anonymous => (.redirectLogin, db)
  | .authenticated u =>
    let post := { form with author := u }
    (.ok post, { db with posts := db.posts ++ [post] })

/-- `PostUpdateView.test_func`: the caller must be authenticated and be
the post's author. -/
def PostUpdateView.test_func (request_user : Actor) (post : Post) : Bool :=
  request_user.is_authenticated && request_user.eqUser post.author

/-- `PostUpdateView.dispatch`: fetch the post (404 if absent), redirect
to the post's detail page when `test_func` fails, otherwise let the
edit through. -/
def PostUpdateView.dispatch (db : DB) (request_user : Actor) (pk : Nat)
    (form : Post → Post) : Outcome Post × DB :=
  match db.posts.find? (fun p => p.id == pk) with
  | none => (.notFound, db)
  | some post =>
    if !(PostUpdateView.test_func request_user post) then
      (.redirectPostDetail pk, db)
    else
      let updated := form post
      (.ok updated,
        { db with posts := db.posts.map (fun q => if q.id == pk then updated else q) })

/-- `PostDeleteView`: `LoginRequiredMixin` first; `get_queryset` is
restricted to the caller's own posts, so a foreign `post_id` is a 404. -/
def PostDeleteView.handle (db : DB) (request_user : Actor) (post_id : Nat) :
    Outcome Unit × DB :=
  match request_user with
  | .anonymous => (.redirectLogin, db)
  | .authenticated u =>
    match (db.posts.filter (fun p => p.author.id == u.id)).find?
        (fun p => p.id == post_id) with
    | none => (.notFound, db)
    | some _ =>
      (.ok (), { db with posts := db.posts.filter (fun p => !(p.id == post_id)) })

/-- `PostDetailView.get_object`: fetch the post by id (404 if absent);
return it when the caller is the author or the post is published, its
category is published and its publication date has passed; 404 otherwise. -/
def PostDetailView.get_object (db : DB) (now : Int) (request_user : Actor)
    (post_id : Nat) : Outcome Post :=
  match db.posts.find? (fun p => p.id == post_id) with
  | none => .notFound
  | some post =>
    if request_user.eqUser post.author
        || (post.is_published && post.category.is_published
            && decide (post.pub_date ≤ now)) then
      .ok post
    else
      .notFound

/-- `ProfileView.get_queryset`: 404 when no user has the requested
username; otherwise all posts whose author is that user, annotated with
the comment count and ordered by `-pub_date`.  The source never reads
`request.user` here, so the viewer argument is unused. -/
def ProfileView.get_queryset (db : DB) (viewer : Actor) (username : String) :
    Outcome (List (Post × Nat)) :=
  match db.users.find? (fun u => u.username == username) with
  | none => .notFound
  | some profile =>
    let posts := db.posts.filter (fun p => p.author.id == profile.id)
    let posts_annotated := posts.map (fun p => (p, comment_count db p))
    .ok (posts_annotated.insertionSort pairDesc)

/-- `CategoryPostsView.get_queryset`: `get_object_or_404(Category,
slug=category_slug, is_published=True)`, then the posts of that category
with `is_published=True, pub_date__lte=now`, ordered by `-pub_date`,
annotated, and refiltered on `category__is_published=True` (the
duplicated check of line 216 of the source). -/
def CategoryPostsView.get_queryset (db : DB) (now : Int)
    (category_slug : String) : Outcome (List (Post × Nat)) :=
  match db.categories.find? (fun c => c.slug == category_slug && c.is_published) with
  | none => .notFound
  | some category =>
    let queryset := db.posts.filter (fun p =>
      p.is_published && decide (p.pub_date ≤ now) && p.category.id == category.id)
    let sorted := order_by_pub_date_desc queryset
    let annotated := sorted.map (fun p => (p, comment_count db p))
    .ok (annotated.filter (fun pc => pc.1.category.is_published))

/-- Variant of `CategoryPostsView.get_queryset` with the
category-publication predicate applied only once (the queryset-level
refilter of line 216 removed), as the spec says an implementation
should apply it.  Written for comparison with the source's query. -/
def CategoryPostsView.get_queryset_single_check (db : DB) (now : Int)
    (category_slug : String) : Outcome (List (Post × Nat)) :=
  match db.categories.find? (fun c => c.slug == category_slug && c.is_published) with
  | none => .notFound
  | some category =>
    let queryset := db.posts.filter (fun p =>
      p.is_published && decide (p.pub_date ≤ now) && p.category.id == category.id)
    let sorted := order_by_pub_date_desc queryset
    .ok (sorted.map (fun p => (p, comment_count db p)))

/-- `EditProfileView`: `LoginRequiredMixin` first; `get_object` returns
`request.user`, so the edit always targets the caller. -/
def EditProfileView.handle (db : DB) (request_user : Actor)
    (form : User → User) : Outcome User × DB :=
  match request_user with
  | .anonymous => (.redirectLogin, db)
  | .authenticated u =>
    let updated := form u
    (.ok updated,
      { db with users := db.users.map (fun v => if v.id == u.id then updated else v) })

/-- `AddCommentView`: `LoginRequiredMixin` first; `form_valid` fetches
the post (404 if absent) and stores the comment with `post` and
`author` taken from the request context. -/
def AddCommentView.handle (db : DB) (request_user : Actor) (post_id : Nat)
    (form : Comment) : Outcome Comment × DB :=
  match request_user with
  | .anonymous => (.redirectLogin, db)
  | .authenticated u =>
    match db.posts.find? (fun p => p.id == post_id) with
    | none => (.notFound, db)
    | some _ =>
      let comment := { form with post := post_id, author := u }
      (.ok comment, { db with comments := db.comments ++ [comment] })

/-- `EditCommentView.dispatch`: `get_object` first (404 if absent), then
`PermissionDenied` when the comment's author is not `request.user`; only
then does `super().dispatch` reach `LoginRequiredMixin`.  An anonymous
caller therefore hits the 403, never the login redirect. -/
def EditCommentView.dispatch (db : DB) (request_user : Actor)
    (comment_id : Nat) (form : Comment → Comment) : Outcome Comment × DB :=
  match db.comments.find? (fun c => c.id == comment_id) with
  | none => (.notFound, db)
  | some comment =>
    if !(request_user.eqUser comment.author) then
      (.forbidden, db)
    else if !request_user.is_authenticated then
      (.redirectLogin, db)
    else
      let updated := form comment
      (.ok updated,
        { db with comments :=
            db.comments.map (fun d => if d.id == comment_id then updated else d) })

/-- `DeleteCommentView.dispatch`: same shape as `EditCommentView.dispatch`
with deletion instead of update. -/
def DeleteCommentView.dispatch (db : DB) (request_user : Actor)
    (comment_id : Nat) : Outcome Unit × DB :=
  match db.comments.find? (fun c => c.id == comment_id) with
  | none => (.notFound, db)
  | some comment =>
    if !(request_user.eqUser comment.author) then
      (.forbidden, db)
    else if !request_user.is_authenticated then
      (.redirectLogin, db)
    else
      (.ok (), { db with comments := db.comments.filter (fun d => !(d.id == comment_id)) })

/-- The spec's permission predicate, written from its words: an actor may
modify an entity iff the actor is authenticated and is the entity's
author.  To be compared with the source's checks. -/
def can_modify (author : User) (actor : Actor) : Bool :=
  actor.is_authenticated && actor.eqUser author

/-- A listing is sorted by `pub_date` descending and every row carries
the comment count of its post. -/
def sortedDescAndCounted (db : DB) (l : List (Post × Nat)) : Prop :=
  l.Pairwise pairDesc ∧ ∀ x ∈ l, x.2 = comment_count db x.1

/- Concrete example rows used by witnesses. -/

def alice : User := { id := 1, username := "alice" }

def bob : User := { id := 2, username := "bob" }

def newsCat : Category := { id := 1, slug := "news", is_published := true }

def draftCat : Category := { id := 2, slug := "drafts", is_published := false }

def post1 : Post :=
  { id := 1, title := "hello", author := alice, category := newsCat,
    pub_date := 50, is_published := true }

def post2 : Post :=
  { id := 2, title := "draft", author := alice, category := draftCat,
    pub_date := 200, is_published := false }

def comment1 : Comment :=
  { id := 1, post := 1, author := alice, text := "hi", created_at := 60 }

def exDb : DB :=
  { users := [alice, bob], categories := [newsCat, draftCat],
    posts := [post1, post2], comments := [comment1] }

/- Helper lemmas shared by the claim theorems. -/

theorem eqUser_authenticated {A : Actor} {u : User} (h : A.eqUser u = true) :
    A.is_authenticated = true := by
  cases A with
  | anonymous => simp [Actor.eqUser] at h
  | authenticated v => rfl

theorem can_modify_eq_eqUser (u : User) (A : Actor) :
    can_modify u A = A.eqUser u := by
  cases A with
  | anonymous => rfl
  | authenticated v => simp [can_modify, Actor.is_authenticated, Bool.true_and]

theorem visible_bool_iff (V : Actor) (P : Post) (now : Int) :
    (V.eqUser P.author
        || (P.is_published && P.category.is_published && decide (P.pub_date ≤ now)))
        = true ↔
      (V.eqUser P.author = true ∨
        (P.is_published = true ∧ P.category.is_published = true ∧ P.pub_date ≤ now)) := by
  simp [Bool.or_eq_true, Bool.and_eq_true, and_assoc]

/-- C1: for every post P and viewer V, the single-post detail retrieval
returns P exactly when V is P's author, or P is published, its category
is published and its publication date has passed; in every other case
(including an anonymous viewer who is not the author) it signals
NotFound. -/
theorem C1_post_detail_visibility (db : DB) (now : Int) (V : Actor) (P : Post)
    (hP : db.posts.find? (fun p => p.id == P.id) = some P) :
    (PostDetailView.get_object db now V P.id = Outcome.ok P ↔
      (V.eqUser P.author = true ∨
        (P.is_published = true ∧ P.category.is_published = true ∧ P.pub_date ≤ now))) ∧
    (¬(V.eqUser P.author = true ∨
        (P.is_published = true ∧ P.category.is_published = true ∧ P.pub_date ≤ now)) →
      PostDetailView.get_object db now V P.id = Outcome.notFound) := by
  have hobj : PostDetailView.get_object db now V P.id =
      if V.eqUser P.author
          || (P.is_published && P.category.is_published && decide (P.pub_date ≤ now)) then
        Outcome.ok P
      else
        Outcome.notFound := by
    unfold PostDetailView.get_object
    rw [hP]
  rw [hobj]
  by_cases h : (V.eqUser P.author
      || (P.is_published && P.category.is_published && decide (P.pub_date ≤ now))) = true
  · rw [if_pos h]
    exact ⟨⟨fun _ => (visible_bool_iff V P now).mp h, fun _ => rfl⟩,
      fun hc => absurd ((visible_bool_iff V P now).mp h) hc⟩
  · rw [if_neg h]
    exact ⟨⟨fun hc => absurd hc (by simp), fun hc => absurd ((visible_bool_iff V P now).mpr hc) h⟩,
      fun _ => rfl⟩

theorem C1_post_detail_visibility_witness :
    PostDetailView.get_object exDb 100 Actor.anonymous post1.id = Outcome.ok post1 :=
  (C1_post_detail_visibility exDb 100 Actor.anonymous post1 (by decide)).1.mpr (by decide)

/-- C2: the modification-permission check grants an actor the right to
edit or delete a Post or a Comment exactly when the actor is
authenticated and is the entity's author, and the same predicate
(`can_modify`) governs post update, post deletion, comment update and
comment deletion. -/
theorem C2_can_modify_uniform (db : DB) (A : Actor) (pk cid : Nat)
    (P : Post) (C : Comment) (fp : Post → Post) (fc : Comment → Comment)
    (hP : db.posts.find? (fun p => p.id == pk) = some P)
    (hC : db.comments.find? (fun c => c.id == cid) = some C)
    (hpkuniq : ∀ q ∈ db.posts, q.id = pk → q = P) :
    PostUpdateView.test_func A P = can_modify P.author A ∧
    ((PostUpdateView.dispatch db A pk fp).1 = Outcome.ok (fp P) ↔
      can_modify P.author A = true) ∧
    ((PostDeleteView.handle db A pk).1 = Outcome.ok () ↔
      can_modify P.author A = true) ∧
    ((EditCommentView.dispatch db A cid fc).1 = Outcome.ok (fc C) ↔
      can_modify C.author A = true) ∧
    ((DeleteCommentView.dispatch db A cid).1 = Outcome.ok () ↔
      can_modify C.author A = true) := by
  refine ⟨rfl, ?_, ?_, ?_, ?_⟩
  · unfold PostUpdateView.dispatch
    rw [hP]
    by_cases h : PostUpdateView.test_func A P = true
    · have hcm : can_modify P.author A = true := h
      simp [h, hcm]
    · have hcm : can_modify P.author A = false :=
        Bool.not_eq_true _ ▸ Bool.of_not_eq_true h
      simp [Bool.not_eq_true] at h
      simp [h, hcm]
  · unfold PostDeleteView.handle
    have hmem : P ∈ db.posts := List.mem_of_find?_eq_some hP
    have hPid : (P.id == pk) = true := by
      have h2 := List.find?_some hP
      simpa using h2
    cases A with
    | anonymous => simp [can_modify, Actor.is_authenticated]
    | authenticated u =>
      dsimp only
      by_cases h : u.id = P.author.id
      · have hPf : P ∈ db.posts.filter (fun p => p.author.id == u.id) :=
          List.mem_filter.mpr ⟨hmem, by simp [h]⟩
        have hsome : ((db.posts.filter (fun p => p.author.id == u.id)).find?
            (fun p => p.id == pk)).isSome :=
          List.find?_isSome.mpr ⟨P, hPf, hPid⟩
        obtain ⟨q, hq⟩ := Option.isSome_iff_exists.mp hsome
        rw [hq]
        simp [can_modify, Actor.eqUser, Actor.is_authenticated, h]
      · have hnone : (db.posts.filter (fun p => p.author.id == u.id)).find?
            (fun p => p.id == pk) = none := by
          rw [List.find?_eq_none]
          intro a ha hapk
          have hau : a.author.id = u.id := by
            simpa using (List.mem_filter.mp ha).2
          have haP : a = P := hpkuniq a (List.mem_filter.mp ha).1 (by simpa using hapk)
          rw [haP] at hau
          exact h hau.symm
        rw [hnone]
        simp [can_modify, Actor.eqUser, Actor.is_authenticated, h]
  · unfold EditCommentView.dispatch
    rw [hC]
    rw [can_modify_eq_eqUser]
    by_cases h : A.eqUser C.author = true
    · simp [h, eqUser_authenticated h]
    · simp [Bool.not_eq_true] at h
      simp [h]
  · unfold DeleteCommentView.dispatch
    rw [hC]
    rw [can_modify_eq_eqUser]
    by_cases h : A.eqUser C.author = true
    · simp [h, eqUser_authenticated h]
    · simp [Bool.not_eq_true] at h
      simp [h]

theorem C2_can_modify_uniform_witness :
    PostUpdateView.test_func (Actor.authenticated alice) post1
        = can_modify post1.author (Actor.authenticated alice) ∧
    ((PostUpdateView.dispatch exDb (Actor.authenticated alice) 1 id).1
        = Outcome.ok (id post1) ↔
      can_modify post1.author (Actor.authenticated alice) = true) ∧
    ((PostDeleteView.handle exDb (Actor.authenticated alice) 1).1 = Outcome.ok () ↔
      can_modify post1.author (Actor.authenticated alice) = true) ∧
    ((EditCommentView.dispatch exDb (Actor.authenticated alice) 1 id).1
        = Outcome.ok (id comment1) ↔
      can_modify comment1.author (Actor.authenticated alice) = true) ∧
    ((DeleteCommentView.dispatch exDb (Actor.authenticated alice) 1).1
        = Outcome.ok () ↔
      can_modify comment1.author (Actor.authenticated alice) = true) :=
  C2_can_modify_uniform exDb (Actor.authenticated alice) 1 1 post1 comment1 id id
    (by decide) (by decide) (by decide)

/-- C3: every post in the global feed is published, has a published
category, and has a publication date no later than now. -/
theorem C3_global_feed_invariant (db : DB) (now : Int) (p : Post) (n : Nat)
    (h : (p, n) ∈ PostListView.get_queryset db now) :
    p.is_published = true ∧ p.category.is_published = true ∧ p.pub_date ≤ now := by
  simp only [PostListView.get_queryset, List.mem_map] at h
  obtain ⟨q, hq, heq⟩ := h
  injection heq with h1 h2
  subst h1
  rw [order_by_pub_date_desc, List.mem_insertionSort, List.mem_filter] at hq
  have hcond := hq.2
  simp only [Bool.and_eq_true, decide_eq_true_eq] at hcond
  exact ⟨hcond.1.1, hcond.2, hcond.1.2⟩

theorem C3_global_feed_invariant_witness :
    post1.is_published = true ∧ post1.category.is_published = true ∧
      post1.pub_date ≤ 100 :=
  C3_global_feed_invariant exDb 100 post1 1 (by decide)

/-- C4: an edit attempt on a post by any actor who is not the post's
author is answered with a redirect to that post's detail page, and the
persistence state is unchanged. -/
theorem C4_nonauthor_post_edit_redirects (db : DB) (B : Actor) (pk : Nat)
    (P : Post) (form : Post → Post)
    (hP : db.posts.find? (fun p => p.id == pk) = some P)
    (hne : B.eqUser P.author = false) :
    PostUpdateView.dispatch db B pk form = (Outcome.redirectPostDetail pk, db) := by
  unfold PostUpdateView.dispatch
  rw [hP]
  have ht : PostUpdateView.test_func B P = false := by
    simp [PostUpdateView.test_func, hne]
  simp [ht]

theorem C4_nonauthor_post_edit_redirects_witness :
    PostUpdateView.dispatch exDb (Actor.authenticated bob) 1 id
      = (Outcome.redirectPostDetail 1, exDb) :=
  C4_nonauthor_post_edit_redirects exDb (Actor.authenticated bob) 1 post1 id
    (by decide) (by decide)

/-- C5: an edit or delete attempt on a comment by any actor who is not
the comment's author is answered with Forbidden, and the persistence
state is unchanged. -/
theorem C5_nonauthor_comment_forbidden (db : DB) (B : Actor) (cid : Nat)
    (C : Comment) (form : Comment → Comment)
    (hC : db.comments.find? (fun c => c.id == cid) = some C)
    (hne : B.eqUser C.author = false) :
    EditCommentView.dispatch db B cid form = (Outcome.forbidden, db) ∧
    DeleteCommentView.dispatch db B cid = (Outcome.forbidden, db) := by
  constructor
  · unfold EditCommentView.dispatch
    rw [hC]
    simp [hne]
  · unfold DeleteCommentView.dispatch
    rw [hC]
    simp [hne]

theorem C5_nonauthor_comment_forbidden_witness :
    EditCommentView.dispatch exDb (Actor.authenticated bob) 1 id
        = (Outcome.forbidden, exDb) ∧
    DeleteCommentView.dispatch exDb (Actor.authenticated bob) 1
        = (Outcome.forbidden, exDb) :=
  C5_nonauthor_comment_forbidden exDb (Actor.authenticated bob) 1 comment1 id
    (by decide) (by decide)

/-- C6 as stated is false: an unauthenticated attempt to edit an
existing comment is answered with Forbidden (the author check of
`EditCommentView.dispatch` runs before `LoginRequiredMixin`), not with
a redirect to the login entry point. -/
theorem C6_counterexample :
    EditCommentView.dispatch exDb Actor.anonymous 1 id = (Outcome.forbidden, exDb) ∧
    (Outcome.forbidden : Outcome Comment) ≠ Outcome.redirectLogin := by
  constructor
  · decide
  · intro h
    cases h

/-- C6, amended: an unauthenticated invocation of any
authentication-requiring handler performs no mutation; create post,
delete post, add comment and edit profile redirect to the login entry
point, while edit post redirects to the post's detail page (or signals
NotFound when the post is absent) and edit/delete comment signal
Forbidden (or NotFound when the comment is absent). -/
theorem C6_unauthenticated_outcomes (db : DB) (pk post_id comment_id : Nat)
    (pform : Post) (pedit : Post → Post) (cform : Comment)
    (cedit : Comment → Comment) (uedit : User → User) :
    PostCreateView.handle db Actor.anonymous pform = (Outcome.redirectLogin, db) ∧
    PostDeleteView.handle db Actor.anonymous pk = (Outcome.redirectLogin, db) ∧
    AddCommentView.handle db Actor.anonymous post_id cform
        = (Outcome.redirectLogin, db) ∧
    EditProfileView.handle db Actor.anonymous uedit = (Outcome.redirectLogin, db) ∧
    (PostUpdateView.dispatch db Actor.anonymous pk pedit).2 = db ∧
    ((PostUpdateView.dispatch db Actor.anonymous pk pedit).1
        = Outcome.redirectPostDetail pk ∨
      (PostUpdateView.dispatch db Actor.anonymous pk pedit).1 = Outcome.notFound) ∧
    (EditCommentView.dispatch db Actor.anonymous comment_id cedit).2 = db ∧
    ((EditCommentView.dispatch db Actor.anonymous comment_id cedit).1
        = Outcome.forbidden ∨
      (EditCommentView.dispatch db Actor.anonymous comment_id cedit).1
        = Outcome.notFound) ∧
    (DeleteCommentView.dispatch db Actor.anonymous comment_id).2 = db ∧
    ((DeleteCommentView.dispatch db Actor.anonymous comment_id).1
        = Outcome.forbidden ∨
      (DeleteCommentView.dispatch db Actor.anonymous comment_id).1
        = Outcome.notFound) := by
  refine ⟨rfl, rfl, rfl, rfl, ?_, ?_, ?_, ?_, ?_, ?_⟩
  · unfold PostUpdateView.dispatch
    cases h : db.posts.find? (fun p => p.id == pk) with
    | none => rfl
    | some post => simp [PostUpdateView.test_func, Actor.is_authenticated]
  · unfold PostUpdateView.dispatch
    cases h : db.posts.find? (fun p => p.id == pk) with
    | none => exact Or.inr rfl
    | some post =>
      exact Or.inl (by simp [PostUpdateView.test_func, Actor.is_authenticated])
  · unfold EditCommentView.dispatch
    cases h : db.comments.find? (fun c => c.id == comment_id) with
    | none => rfl
    | some c => simp [Actor.eqUser]
  · unfold EditCommentView.dispatch
    cases h : db.comments.find? (fun c => c.id == comment_id) with
    | none => exact Or.inr rfl
    | some c => exact Or.inl (by simp [Actor.eqUser])
  · unfold DeleteCommentView.dispatch
    cases h : db.comments.find? (fun c => c.id == comment_id) with
    | none => rfl
    | some c => simp [Actor.eqUser]
  · unfold DeleteCommentView.dispatch
    cases h : db.comments.find? (fun c => c.id == comment_id) with
    | none => exact Or.inr rfl
    | some c => exact Or.inl (by simp [Actor.eqUser])

theorem counted_map (db : DB) (l : List Post) (x : Post × Nat)
    (hx : x ∈ l.map (fun p => (p, comment_count db p))) :
    x.2 = comment_count db x.1 := by
  rw [List.mem_map] at hx
  obtain ⟨q, -, rfl⟩ := hx
  rfl

theorem sorted_annotated_map (db : DB) (l : List Post) :
    ((order_by_pub_date_desc l).map
      (fun p => (p, comment_count db p))).Pairwise pairDesc := by
  rw [List.pairwise_map]
  exact List.sorted_insertionSort postDesc l

/-- C7: the profile listing for a user returns exactly the posts
authored by that user, with no publication filter, and its content does
not depend on who is viewing. -/
theorem C7_profile_lists_all_author_posts (db : DB) (viewer : Actor)
    (username : String) (U : User) (l : List (Post × Nat))
    (hU : db.users.find? (fun u => u.username == username) = some U)
    (hl : ProfileView.get_queryset db viewer username = Outcome.ok l) :
    (∀ viewer2 : Actor,
      ProfileView.get_queryset db viewer2 username = Outcome.ok l) ∧
    ∀ p : Post, ((∃ n, (p, n) ∈ l) ↔ (p ∈ db.posts ∧ p.author.id = U.id)) := by
  constructor
  · intro viewer2
    exact hl
  · unfold ProfileView.get_queryset at hl
    rw [hU] at hl
    injection hl with hl
    subst hl
    intro p
    constructor
    · rintro ⟨n, hn⟩
      rw [List.mem_insertionSort, List.mem_map] at hn
      obtain ⟨q, hq, heq⟩ := hn
      injection heq with h1 h2
      subst h1
      have hf := List.mem_filter.mp hq
      exact ⟨hf.1, by simpa using hf.2⟩
    · rintro ⟨hmem, hid⟩
      refine ⟨comment_count db p, ?_⟩
      rw [List.mem_insertionSort, List.mem_map]
      exact ⟨p, List.mem_filter.mpr ⟨hmem, by simp [hid]⟩, rfl⟩

theorem C7_profile_lists_all_author_posts_witness :
    (∀ viewer2 : Actor, ProfileView.get_queryset exDb viewer2 "alice"
        = Outcome.ok [(post2, 0), (post1, 1)]) ∧
    ∀ p : Post, ((∃ n, (p, n) ∈ [(post2, 0), (post1, 1)]) ↔
      (p ∈ exDb.posts ∧ p.author.id = alice.id)) :=
  C7_profile_lists_all_author_posts exDb Actor.anonymous "alice" alice
    [(post2, 0), (post1, 1)] (by decide) (by decide)

/-- C8: the category feed signals NotFound when no published category
has the requested slug; otherwise it contains exactly the posts of that
category that are published with a publication date no later than now. -/
theorem C8_category_feed (db : DB) (now : Int) (slug : String) :
    (db.categories.find? (fun c => c.slug == slug && c.is_published) = none →
      CategoryPostsView.get_queryset db now slug = Outcome.notFound) ∧
    ∀ cat,
      db.categories.find? (fun c => c.slug == slug && c.is_published) = some cat →
      (∀ p ∈ db.posts, p.category.id = cat.id → p.category = cat) →
      ∃ l, CategoryPostsView.get_queryset db now slug = Outcome.ok l ∧
        ∀ p : Post, ((∃ n, (p, n) ∈ l) ↔
          (p ∈ db.posts ∧ p.category.id = cat.id ∧
            p.is_published = true ∧ p.pub_date ≤ now)) := by
  constructor
  · intro h
    unfold CategoryPostsView.get_queryset
    rw [h]
  · intro cat hfind hint
    have hcatpub : cat.is_published = true := by
      have h2 := List.find?_some hfind
      simp only [Bool.and_eq_true] at h2
      exact h2.2
    refine ⟨((order_by_pub_date_desc (db.posts.filter (fun p =>
        p.is_published && decide (p.pub_date ≤ now)
          && p.category.id == cat.id))).map
        (fun p => (p, comment_count db p))).filter
        (fun pc => pc.1.category.is_published), ?_, ?_⟩
    · unfold CategoryPostsView.get_queryset
      rw [hfind]
    · intro p
      constructor
      · rintro ⟨n, hn⟩
        rw [List.mem_filter] at hn
        obtain ⟨hn1, -⟩ := hn
        rw [List.mem_map] at hn1
        obtain ⟨q, hq, heq⟩ := hn1
        injection heq with h1 h2
        subst h1
        rw [order_by_pub_date_desc, List.mem_insertionSort, List.mem_filter] at hq
        obtain ⟨hmem, hcond⟩ := hq
        simp only [Bool.and_eq_true, decide_eq_true_eq, beq_iff_eq] at hcond
        exact ⟨hmem, hcond.2, hcond.1.1, hcond.1.2⟩
      · rintro ⟨hmem, hcid, hpub, hdate⟩
        refine ⟨comment_count db p, ?_⟩
        rw [List.mem_filter]
        constructor
        · rw [List.mem_map]
          refine ⟨p, ?_, rfl⟩
          rw [order_by_pub_date_desc, List.mem_insertionSort, List.mem_filter]
          exact ⟨hmem, by simp [hpub, hdate, hcid]⟩
        · have hpc : p.category = cat := hint p hmem hcid
          simp [hpc, hcatpub]

theorem C8_category_feed_witness :
    ∃ l, CategoryPostsView.get_queryset exDb 100 "news" = Outcome.ok l ∧
      ∀ p : Post, ((∃ n, (p, n) ∈ l) ↔
        (p ∈ exDb.posts ∧ p.category.id = newsCat.id ∧
          p.is_published = true ∧ p.pub_date ≤ 100)) :=
  (C8_category_feed exDb 100 "news").2 newsCat (by decide) (by decide)

/-- C9: the three listing contexts (global feed, profile, category feed)
are ordered by publication date descending and every row carries the
comment count of its post. -/
theorem C9_listings_sorted_and_counted (db : DB) (now : Int) (viewer : Actor)
    (username category_slug : String) (lp lc : List (Post × Nat))
    (hp : ProfileView.get_queryset db viewer username = Outcome.ok lp)
    (hc : CategoryPostsView.get_queryset db now category_slug = Outcome.ok lc) :
    sortedDescAndCounted db (PostListView.get_queryset db now) ∧
    sortedDescAndCounted db lp ∧ sortedDescAndCounted db lc := by
  refine ⟨⟨sorted_annotated_map db _, ?_⟩, ?_, ?_⟩
  · intro x hx
    exact counted_map db _ x hx
  · unfold ProfileView.get_queryset at hp
    cases hfind : db.users.find? (fun u => u.username == username) with
    | none => rw [hfind] at hp; cases hp
    | some profile =>
      rw [hfind] at hp
      injection hp with hp
      subst hp
      constructor
      · exact List.sorted_insertionSort pairDesc _
      · intro x hx
        rw [List.mem_insertionSort] at hx
        exact counted_map db _ x hx
  · unfold CategoryPostsView.get_queryset at hc
    cases hfind : db.categories.find?
        (fun c => c.slug == category_slug && c.is_published) with
    | none => rw [hfind] at hc; cases hc
    | some cat =>
      rw [hfind] at hc
      injection hc with hc
      subst hc
      constructor
      · exact (sorted_annotated_map db _).filter _
      · intro x hx
        rw [List.mem_filter] at hx
        exact counted_map db _ x hx.1

theorem C9_listings_sorted_and_counted_witness :
    sortedDescAndCounted exDb (PostListView.get_queryset exDb 100) ∧
    sortedDescAndCounted exDb [(post2, 0), (post1, 1)] ∧
    sortedDescAndCounted exDb [(post1, 1)] :=
  C9_listings_sorted_and_counted exDb 100 Actor.anonymous "alice" "news"
    [(post2, 0), (post1, 1)] [(post1, 1)] (by decide) (by decide)

/-- C10: for a published category, applying the category-publication
predicate a second time inside the category-feed query (as the source
does) returns the same sequence as applying it only once. -/
theorem C10_double_filter_noop (db : DB) (now : Int) (slug : String)
    (cat : Category)
    (hfind : db.categories.find? (fun c => c.slug == slug && c.is_published)
      = some cat)
    (hint : ∀ p ∈ db.posts, p.category.id = cat.id → p.category = cat) :
    CategoryPostsView.get_queryset db now slug
      = CategoryPostsView.get_queryset_single_check db now slug := by
  have hcatpub : cat.is_published = true := by
    have h2 := List.find?_some hfind
    simp only [Bool.and_eq_true] at h2
    exact h2.2
  unfold CategoryPostsView.get_queryset CategoryPostsView.get_queryset_single_check
  rw [hfind]
  dsimp only
  congr 1
  apply List.filter_eq_self.mpr
  intro x hx
  rw [List.mem_map] at hx
  obtain ⟨q, hq, rfl⟩ := hx
  rw [order_by_pub_date_desc, List.mem_insertionSort, List.mem_filter] at hq
  obtain ⟨hmem, hcond⟩ := hq
  simp only [Bool.and_eq_true, decide_eq_true_eq, beq_iff_eq] at hcond
  have hqc : q.category = cat := hint q hmem hcond.2
  simp [hqc, hcatpub]

theorem C10_double_filter_noop_witness :
    CategoryPostsView.get_queryset exDb 100 "news"
      = CategoryPostsView.get_queryset_single_check exDb 100 "news" :=
  C10_double_filter_noop exDb 100 "news" newsCat (by decide) (by decide)
